import Mathlib

/-!
# Delivery-method form (lab3-qt): selection exclusivity and confirm gating

Shallow embedding of `src/lab3/lab3-qt/mainwindow.cpp` / `mainwindow.h`.

* A `DeliveryButton*` is the address of a `DeliveryButton` object; the objects live in
  `MainWindow.heap` and an address is an index into it.  `nullptr` is `none`.
* The single `ConfirmButton` is stored behind `m_confirmButton`.
* Toolkit state that the handlers write is kept as record fields: style sheet, cursor,
  enabled flag, the dynamic properties `hovered` / `pressed`, the tooltip timer.
  Geometry, fonts and layouts are constants that no handler reads or writes and are left out.
* `QMessageBox::exec()` is the only output; a handler returns the box it shows, if any.
-/

namespace Lab3

/-! ## Toolkit values -/

/-- Cursor shapes used by the widgets (`Qt::CursorShape`). -/
inductive CursorShape
  | ArrowCursor
  | PointingHandCursor
  | ForbiddenCursor
  deriving DecidableEq, Repr

/-- Standard buttons of a message box (`QMessageBox::StandardButton`). -/
inductive StandardButton
  | Ok
  deriving DecidableEq, Repr

/-- A message box as configured right before `exec()`. -/
structure QMessageBox where
  windowTitle : String
  text : String
  standardButtons : List StandardButton
  styleSheet : String
  deriving DecidableEq, Repr

/-- A `QObject*` as returned by `sender()`: null, a `DeliveryButton` at an address,
the window's `ConfirmButton`, or an object of any other class. -/
inductive QObjectPtr
  | nullptr
  | deliveryButton (addr : Nat)
  | confirmButton
  | other (addr : Nat)
  deriving DecidableEq, Repr

/-- The cast `qobject_cast<DeliveryButton*>`: the address when the dynamic class is
`DeliveryButton`, null otherwise. -/
def qobject_cast_DeliveryButton : QObjectPtr → Option Nat
  | .deliveryButton addr => some addr
  | _ => none

/-! ## DeliveryButton -/

/-- Fields of a `DeliveryButton` (the `QPushButton` part that the code touches, then the
members declared in `mainwindow.h`).  `m_tooltipTimer` is `some ms` while the single-shot
timer is running with interval `ms`. -/
structure DeliveryButton where
  text : String
  m_tooltip : String
  m_isSelected : Bool
  styleSheet : String
  cursor : CursorShape
  hovered : Option Bool
  m_tooltipTimer : Option Nat
  deriving DecidableEq, Repr

namespace DeliveryButton

/-- The local `baseStyle` of `updateButtonStyle` after `.arg(a1, a2)`. -/
def baseStyle (a1 a2 : String) : String :=
  String.join [
    "QPushButton \x7b",
    "   background-color: ", a1, ";",
    "   border: 2px solid #3498db;",
    "   border-radius: 10px;",
    "   color: ", a2, ";",
    "   padding: 10px;",
    "   font-weight: bold;",
    "   transition: all 0.2s ease;",
    "\x7d",
    "QPushButton:hover, QPushButton[hovered=\"true\"] \x7b",
    "   border-radius: 15px;",
    "   border: 3px solid #2980b9;",
    "   transform: scale(1.05);",
    "\x7d"]

/-- Body of `DeliveryButton::updateButtonStyle`. -/
def updateButtonStyle (b : DeliveryButton) : DeliveryButton :=
  if b.m_isSelected then
    { b with styleSheet := baseStyle "#3498db" "white" }
  else
    { b with styleSheet := baseStyle "#ecf0f1" "#2c3e50" ++
                           "QPushButton:!hover \x7b opacity: 0.7; \x7d" }

/-- Body of `DeliveryButton::setupButton` (size policy and font omitted). -/
def setupButton (b : DeliveryButton) : DeliveryButton :=
  b.updateButtonStyle

/-- Body of `DeliveryButton::setupTooltipTimer`: a stopped single-shot timer. -/
def setupTooltipTimer (b : DeliveryButton) : DeliveryButton :=
  { b with m_tooltipTimer := none }

/-- Constructor `DeliveryButton::DeliveryButton(text, tooltip)`; a fresh widget has the
arrow cursor, an empty style sheet and no dynamic property. -/
def ctor (text tooltip : String) : DeliveryButton :=
  setupTooltipTimer (setupButton
    { text := text, m_tooltip := tooltip, m_isSelected := false, styleSheet := "",
      cursor := .ArrowCursor, hovered := none, m_tooltipTimer := none })

/-- Body of `DeliveryButton::setSelected`. -/
def setSelected (b : DeliveryButton) (selected : Bool) : DeliveryButton :=
  updateButtonStyle { b with m_isSelected := selected }

/-- Inline getter `DeliveryButton::isSelected`. -/
def isSelected (b : DeliveryButton) : Bool :=
  b.m_isSelected

/-- Body of `DeliveryButton::enterEvent`. -/
def enterEvent (b : DeliveryButton) : DeliveryButton :=
  { b with cursor := .PointingHandCursor, hovered := some true, m_tooltipTimer := some 2000 }

/-- Body of `DeliveryButton::leaveEvent`. -/
def leaveEvent (b : DeliveryButton) : DeliveryButton :=
  { b with cursor := .ArrowCursor, hovered := some false, m_tooltipTimer := none }

end DeliveryButton

/-! ## ConfirmButton -/

/-- Fields of a `ConfirmButton`. -/
structure ConfirmButton where
  text : String
  m_isActive : Bool
  enabled : Bool
  styleSheet : String
  cursor : CursorShape
  hovered : Option Bool
  pressed : Option Bool
  deriving DecidableEq, Repr

namespace ConfirmButton

/-- The local `activeStyle` of `ConfirmButton::updateButtonStyle`. -/
def activeStyle : String :=
  String.join [
    "QPushButton \x7b",
    "   background-color: #27ae60;",
    "   border: none;",
    "   border-radius: 10px;",
    "   color: white;",
    "   font-weight: bold;",
    "   padding: 12px;",
    "   transition: all 0.2s ease;",
    "\x7d",
    "QPushButton:hover, QPushButton[hovered=\"true\"] \x7b",
    "   background-color: #2ecc71;",
    "   border-radius: 15px;",
    "   transform: scale(1.05);",
    "\x7d",
    "QPushButton[pressed=\"true\"] \x7b",
    "   transform: scale(0.95);",
    "\x7d"]

/-- The local `inactiveStyle` of `ConfirmButton::updateButtonStyle`. -/
def inactiveStyle : String :=
  String.join [
    "QPushButton \x7b",
    "   background-color: #95a5a6;",
    "   border: none;",
    "   border-radius: 10px;",
    "   color: #7f8c8d;",
    "   font-weight: bold;",
    "   padding: 12px;",
    "\x7d"]

/-- Body of `ConfirmButton::updateButtonStyle`. -/
def updateButtonStyle (c : ConfirmButton) : ConfirmButton :=
  { c with styleSheet := if c.m_isActive then activeStyle else inactiveStyle }

/-- Body of `ConfirmButton::setupButton` (size policy and font omitted). -/
def setupButton (c : ConfirmButton) : ConfirmButton :=
  c.updateButtonStyle

/-- Constructor `ConfirmButton::ConfirmButton(text)`; a fresh widget is enabled and has
the arrow cursor. -/
def ctor (text : String) : ConfirmButton :=
  setupButton
    { text := text, m_isActive := false, enabled := true, styleSheet := "",
      cursor := .ArrowCursor, hovered := none, pressed := none }

/-- Body of `ConfirmButton::setActive`; `enabled` is the flag that `setEnabled` sets on the
button itself (no ancestor of the button is ever disabled by this program). -/
def setActive (c : ConfirmButton) (active : Bool) : ConfirmButton :=
  let c1 := { c with m_isActive := active }
  let c2 := { c1 with enabled := active }
  let c3 := c2.updateButtonStyle
  if active then
    { c3 with cursor := .PointingHandCursor }
  else
    { c3 with cursor := .ForbiddenCursor }

/-- Body of `ConfirmButton::mousePressEvent` up to the deferred reset of `pressed`: the
new button state and whether the event was passed on to `QPushButton::mousePressEvent`. -/
def mousePressEvent (c : ConfirmButton) : ConfirmButton × Bool :=
  if c.m_isActive then
    ({ c with pressed := some true }, true)
  else
    (c, false)

end ConfirmButton

/-! ## MainWindow -/

/-- The two private slots of `MainWindow`. -/
inductive Slot
  | onDeliveryButtonClicked
  | onConfirmButtonClicked
  deriving DecidableEq, Repr

/-- One `connect(sender, &QPushButton::clicked, this, slot)`. -/
structure Connection where
  sender : QObjectPtr
  slot : Slot
  deriving DecidableEq, Repr

/-- State of a `MainWindow`: the `DeliveryButton` objects by address, the members of
`mainwindow.h`, and the signal connections made on the window. -/
structure MainWindow where
  heap : List DeliveryButton
  m_deliveryButtons : List Nat
  m_courierButton : Nat
  m_postButton : Nat
  m_pickupButton : Nat
  m_confirmButton : ConfirmButton
  m_selectedDelivery : Option Nat
  connections : List Connection
  deriving DecidableEq, Repr

/-- The call `button->setSelected(selected)` for the button at address `p`. -/
def setSelectedAt (heap : List DeliveryButton) (p : Nat) (selected : Bool) :
    List DeliveryButton :=
  match heap[p]? with
  | some b => heap.set p (b.setSelected selected)
  | none => heap

/-- The loop `for (DeliveryButton *button : m_deliveryButtons) button->setSelected(false);`. -/
def deselectAll (heap : List DeliveryButton) (buttons : List Nat) : List DeliveryButton :=
  buttons.foldl (fun h p => setSelectedAt h p false) heap

namespace MainWindow

/-- The call `button->isSelected()` for the button at address `p`. -/
def isSelected (w : MainWindow) (p : Nat) : Option Bool :=
  (w.heap[p]?).map DeliveryButton.isSelected

/-- Body of `MainWindow::updateConfirmButton`. -/
def updateConfirmButton (w : MainWindow) : MainWindow :=
  let hasSelection : Bool := w.m_selectedDelivery != none
  { w with m_confirmButton := w.m_confirmButton.setActive hasSelection }

/-- Body of `MainWindow::setupUI`, given the member initialiser of `m_selectedDelivery`:
the three buttons are allocated at addresses 0, 1, 2. -/
def setupUI (selected : Option Nat) : MainWindow :=
  { heap := [DeliveryButton.ctor "🚚 Кур\x27єр" "Доставка кур\x27єром до дверей",
             DeliveryButton.ctor "📦 Пошта" "Отримання у відділенні пошти",
             DeliveryButton.ctor "🏬 Самовивіз" "Самостійне отримання в магазині"],
    m_courierButton := 0,
    m_postButton := 1,
    m_pickupButton := 2,
    m_deliveryButtons := [0, 1, 2],
    m_confirmButton := ConfirmButton.ctor "Обрати доставку",
    m_selectedDelivery := selected,
    connections := [] }

/-- Body of `MainWindow::connectSignals`. -/
def connectSignals (w : MainWindow) : MainWindow :=
  { w with connections :=
      w.connections ++
      w.m_deliveryButtons.map (fun p => ⟨.deliveryButton p, .onDeliveryButtonClicked⟩) ++
      [⟨.confirmButton, .onConfirmButtonClicked⟩] }

/-- Constructor `MainWindow::MainWindow`. -/
def ctor : MainWindow :=
  updateConfirmButton (connectSignals (setupUI none))

/-- Body of `MainWindow::onDeliveryButtonClicked`, with the value of `sender()`. -/
def onDeliveryButtonClicked (w : MainWindow) (sender : QObjectPtr) : MainWindow :=
  match qobject_cast_DeliveryButton sender with
  | none => w
  | some clickedButton =>
    let h1 := deselectAll w.heap w.m_deliveryButtons
    let h2 := setSelectedAt h1 clickedButton true
    updateConfirmButton { w with heap := h2, m_selectedDelivery := some clickedButton }

/-- The message box built by `onConfirmButtonClicked` for `selectedText`; the text is
`QString("Ви обрали спосіб доставки: %1").arg(selectedText)`. -/
def confirmationBox (selectedText : String) : QMessageBox :=
  { windowTitle := "Вибір доставки",
    text := "Ви обрали спосіб доставки: " ++ selectedText,
    standardButtons := [.Ok],
    styleSheet := String.join [
      "QMessageBox \x7b",
      "   background-color: #ecf0f1;",
      "   font-size: 14px;",
      "\x7d",
      "QMessageBox QPushButton \x7b",
      "   background-color: #3498db;",
      "   color: white;",
      "   border: none;",
      "   border-radius: 5px;",
      "   padding: 8px 16px;",
      "   font-weight: bold;",
      "min-width:300 px;",
      "min-height:80px;",
      "\x7d"] }

/-- Body of `MainWindow::onConfirmButtonClicked`: the state after the call and the message
box shown by `exec()`, if any.  A non-null `m_selectedDelivery` that is not the address of
an object has no defined behaviour in the source; the model shows nothing there. -/
def onConfirmButtonClicked (w : MainWindow) : MainWindow × Option QMessageBox :=
  match w.m_selectedDelivery with
  | none => (w, none)
  | some p =>
    match w.heap[p]? with
    | some b => (w, some (confirmationBox b.text))
    | none => (w, none)

/-- Delivery of a `clicked()` signal over one connection. -/
def invoke (w : MainWindow) (c : Connection) : MainWindow × Option QMessageBox :=
  match c.slot with
  | .onDeliveryButtonClicked => (w.onDeliveryButtonClicked c.sender, none)
  | .onConfirmButtonClicked => w.onConfirmButtonClicked

/-- The state after delivering a sequence of clicks. -/
def run (w : MainWindow) (cs : List Connection) : MainWindow :=
  cs.foldl (fun s c => (s.invoke c).1) w

/-- States reachable from the constructor by clicks on connected buttons. -/
inductive Reachable : MainWindow → Prop
  | init : Reachable ctor
  | click (w : MainWindow) (c : Connection) :
      Reachable w → c ∈ w.connections → Reachable (w.invoke c).1

/-- The connection made for the delivery button at address `p`. -/
def deliveryClick (p : Nat) : Connection :=
  ⟨.deliveryButton p, .onDeliveryButtonClicked⟩

/-- The connection made for the confirm button. -/
def confirmClick : Connection :=
  ⟨.confirmButton, .onConfirmButtonClicked⟩

/-- The constructed window with one more `DeliveryButton` object at address 3 that is not
in `m_deliveryButtons`. -/
def withStrayButton : MainWindow :=
  { ctor with heap := ctor.heap ++ [DeliveryButton.ctor "Extra" "Extra"] }

/-- Facts that hold in every reachable state: the button list, heap size and connections
set up by the constructor never change, the confirm button mirrors the selection, and the
buttons' flags mirror `m_selectedDelivery`. -/
structure Inv (w : MainWindow) : Prop where
  buttons : w.m_deliveryButtons = [0, 1, 2]
  len : w.heap.length = 3
  conns : w.connections = [deliveryClick 0, deliveryClick 1, deliveryClick 2, confirmClick]
  active : w.m_confirmButton.m_isActive = (w.m_selectedDelivery != none)
  enabled : w.m_confirmButton.enabled = (w.m_selectedDelivery != none)
  flags : ∀ q ∈ w.m_deliveryButtons, w.isSelected q = some (w.m_selectedDelivery == some q)
  member : ∀ p, w.m_selectedDelivery = some p → p ∈ w.m_deliveryButtons

end MainWindow

/-! ## Lemmas on buttons and the heap -/

theorem DeliveryButton.isSelected_setSelected (b : DeliveryButton) (v : Bool) :
    (b.setSelected v).isSelected = v := by
  cases v <;> simp [DeliveryButton.setSelected, DeliveryButton.updateButtonStyle,
    DeliveryButton.isSelected]

theorem DeliveryButton.setSelected_setSelected (b : DeliveryButton) (v v2 : Bool) :
    (b.setSelected v).setSelected v2 = b.setSelected v2 := by
  cases v <;> cases v2 <;> simp [DeliveryButton.setSelected, DeliveryButton.updateButtonStyle]

theorem length_setSelectedAt (h : List DeliveryButton) (p : Nat) (v : Bool) :
    (setSelectedAt h p v).length = h.length := by
  unfold setSelectedAt
  split <;> simp

theorem getElem?_setSelectedAt (h : List DeliveryButton) (p q : Nat) (v : Bool) :
    (setSelectedAt h p v)[q]? =
      if q = p then (h[p]?).map (fun b => b.setSelected v) else h[q]? := by
  unfold setSelectedAt
  split
  next b hb =>
    have hp : p < h.length := by
      rcases List.getElem?_eq_some_iff.mp hb with ⟨hlt, _⟩
      exact hlt
    by_cases hq : q = p
    · subst hq
      simp [hb, List.getElem?_set, hp]
    · have hq2 : ¬ p = q := fun e => hq e.symm
      simp [hq, hq2, List.getElem?_set]
  next hb =>
    by_cases hq : q = p
    · subst hq
      simp [hb]
    · simp [hq]

theorem length_deselectAll (ps : List Nat) (h : List DeliveryButton) :
    (deselectAll h ps).length = h.length := by
  induction ps generalizing h with
  | nil => rfl
  | cons p ps ih =>
    simp only [deselectAll, List.foldl_cons] at ih ⊢
    rw [ih, length_setSelectedAt]

theorem getElem?_deselectAll (ps : List Nat) (h : List DeliveryButton) (q : Nat) :
    (deselectAll h ps)[q]? =
      if q ∈ ps then (h[q]?).map (fun b => b.setSelected false) else h[q]? := by
  induction ps generalizing h with
  | nil => simp [deselectAll]
  | cons p ps ih =>
    have step : deselectAll h (p :: ps) = deselectAll (setSelectedAt h p false) ps := rfl
    rw [step, ih, getElem?_setSelectedAt]
    by_cases hqp : q = p
    · subst hqp
      by_cases hmem : q ∈ ps
      · cases hq : h[q]? <;> simp [hmem, DeliveryButton.setSelected_setSelected]
      · simp [hmem]
    · by_cases hmem : q ∈ ps <;> simp [hqp, hmem]

/-! ## Lemmas on the two slots -/

namespace MainWindow

theorem onDeliveryButtonClicked_of_cast_none (w : MainWindow) (sender : QObjectPtr)
    (h : qobject_cast_DeliveryButton sender = none) :
    w.onDeliveryButtonClicked sender = w := by
  simp [onDeliveryButtonClicked, h]

theorem onDeliveryButtonClicked_of_cast_some (w : MainWindow) (sender : QObjectPtr) (p : Nat)
    (h : qobject_cast_DeliveryButton sender = some p) :
    w.onDeliveryButtonClicked sender = w.onDeliveryButtonClicked (.deliveryButton p) := by
  cases sender <;> simp [qobject_cast_DeliveryButton] at h
  subst h
  rfl

theorem selected_onDeliveryButtonClicked (w : MainWindow) (p : Nat) :
    (w.onDeliveryButtonClicked (.deliveryButton p)).m_selectedDelivery = some p := rfl

theorem buttons_onDeliveryButtonClicked (w : MainWindow) (sender : QObjectPtr) :
    (w.onDeliveryButtonClicked sender).m_deliveryButtons = w.m_deliveryButtons := by
  unfold onDeliveryButtonClicked
  split <;> rfl

theorem connections_onDeliveryButtonClicked (w : MainWindow) (sender : QObjectPtr) :
    (w.onDeliveryButtonClicked sender).connections = w.connections := by
  unfold onDeliveryButtonClicked
  split <;> rfl

theorem heap_onDeliveryButtonClicked (w : MainWindow) (p : Nat) :
    (w.onDeliveryButtonClicked (.deliveryButton p)).heap =
      setSelectedAt (deselectAll w.heap w.m_deliveryButtons) p true := rfl

theorem confirm_onDeliveryButtonClicked (w : MainWindow) (p : Nat) :
    (w.onDeliveryButtonClicked (.deliveryButton p)).m_confirmButton =
      w.m_confirmButton.setActive true := rfl

theorem length_heap_onDeliveryButtonClicked (w : MainWindow) (sender : QObjectPtr) :
    (w.onDeliveryButtonClicked sender).heap.length = w.heap.length := by
  cases h : qobject_cast_DeliveryButton sender with
  | none => rw [onDeliveryButtonClicked_of_cast_none w sender h]
  | some p =>
    rw [onDeliveryButtonClicked_of_cast_some w sender p h, heap_onDeliveryButtonClicked,
      length_setSelectedAt, length_deselectAll]

/-- Flags after a click of the button at `p`: `p` is selected, every other listed button is
deselected, and a button outside the list keeps its flag. -/
theorem isSelected_onDeliveryButtonClicked (w : MainWindow) (p q : Nat) :
    (w.onDeliveryButtonClicked (.deliveryButton p)).isSelected q =
      if q = p then (w.heap[p]?).map (fun _ => true)
      else if q ∈ w.m_deliveryButtons then (w.heap[q]?).map (fun _ => false)
      else w.isSelected q := by
  unfold isSelected
  simp only [heap_onDeliveryButtonClicked, getElem?_setSelectedAt, getElem?_deselectAll]
  by_cases hq : q = p
  · subst hq
    by_cases hm : q ∈ w.m_deliveryButtons <;> cases hb : w.heap[q]? <;>
      simp [hm, DeliveryButton.isSelected_setSelected]
  · by_cases hm : q ∈ w.m_deliveryButtons <;> cases hb : w.heap[q]? <;>
      simp [hq, hm, DeliveryButton.isSelected_setSelected]

theorem onConfirmButtonClicked_fst (w : MainWindow) : w.onConfirmButtonClicked.1 = w := by
  unfold onConfirmButtonClicked
  split
  · rfl
  · split <;> rfl

theorem active_setActive (c : ConfirmButton) (b : Bool) : (c.setActive b).m_isActive = b := by
  cases b <;> rfl

theorem enabled_setActive (c : ConfirmButton) (b : Bool) : (c.setActive b).enabled = b := by
  cases b <;> rfl

theorem setActive_setActive (c : ConfirmButton) (b b2 : Bool) :
    (c.setActive b).setActive b2 = c.setActive b2 := by
  cases b <;> cases b2 <;> rfl

/-- Two clicks in a row of the same button equal one, in every state. -/
theorem onDeliveryButtonClicked_twice (w : MainWindow) (p : Nat) :
    (w.onDeliveryButtonClicked (.deliveryButton p)).onDeliveryButtonClicked (.deliveryButton p)
      = w.onDeliveryButtonClicked (.deliveryButton p) := by
  have hheap :
      setSelectedAt (deselectAll (setSelectedAt (deselectAll w.heap w.m_deliveryButtons) p true)
          w.m_deliveryButtons) p true
        = setSelectedAt (deselectAll w.heap w.m_deliveryButtons) p true := by
    apply List.ext_getElem?
    intro q
    simp only [getElem?_setSelectedAt, getElem?_deselectAll]
    by_cases hq : q = p
    · subst hq
      by_cases hm : q ∈ w.m_deliveryButtons <;> cases hb : w.heap[q]? <;>
        simp [hm, DeliveryButton.setSelected_setSelected]
    · by_cases hm : q ∈ w.m_deliveryButtons <;> cases hb : w.heap[q]? <;>
        simp [hq, hm, DeliveryButton.setSelected_setSelected]
  simp only [onDeliveryButtonClicked, qobject_cast_DeliveryButton, updateConfirmButton,
    hheap, setActive_setActive]

theorem inv_ctor : Inv ctor := by
  refine ⟨rfl, rfl, rfl, rfl, rfl, ?_, ?_⟩
  · intro q hq
    have h3 : q = 0 ∨ q = 1 ∨ q = 2 := by
      simpa [ctor, updateConfirmButton, connectSignals, setupUI] using hq
    rcases h3 with rfl | rfl | rfl <;> rfl
  · intro p hp
    cases hp

theorem inv_onDeliveryButtonClicked (w : MainWindow) (sender : QObjectPtr) (hw : Inv w)
    (hs : ⟨sender, Slot.onDeliveryButtonClicked⟩ ∈ w.connections) :
    Inv (w.onDeliveryButtonClicked sender) := by
  have hp : ∃ p, sender = .deliveryButton p ∧ p ∈ w.m_deliveryButtons := by
    rw [hw.conns] at hs
    rw [hw.buttons]
    simp [deliveryClick, confirmClick] at hs
    rcases hs with h | h | h <;> subst h <;> simp
  obtain ⟨p, rfl, hpm⟩ := hp
  have hpl : p < w.heap.length := by
    rw [hw.buttons] at hpm
    rw [hw.len]
    simp at hpm
    omega
  refine ⟨?_, ?_, ?_, ?_, ?_, ?_, ?_⟩
  · rw [buttons_onDeliveryButtonClicked, hw.buttons]
  · rw [length_heap_onDeliveryButtonClicked, hw.len]
  · rw [connections_onDeliveryButtonClicked, hw.conns]
  · rw [confirm_onDeliveryButtonClicked, active_setActive, selected_onDeliveryButtonClicked]
    rfl
  · rw [confirm_onDeliveryButtonClicked, enabled_setActive, selected_onDeliveryButtonClicked]
    rfl
  · intro q hq
    rw [buttons_onDeliveryButtonClicked] at hq
    have hql : q < w.heap.length := by
      rw [hw.buttons] at hq
      rw [hw.len]
      simp at hq
      omega
    rw [isSelected_onDeliveryButtonClicked, selected_onDeliveryButtonClicked]
    by_cases hqp : q = p
    · subst hqp
      simp [List.getElem?_eq_getElem hql]
    · have hne : ¬ p = q := fun e => hqp e.symm
      simp [hqp, hne, hq, List.getElem?_eq_getElem hql]
  · intro q hq
    rw [selected_onDeliveryButtonClicked] at hq
    rw [buttons_onDeliveryButtonClicked]
    cases hq
    exact hpm

theorem inv_invoke (w : MainWindow) (c : Connection) (hw : Inv w) (hc : c ∈ w.connections) :
    Inv (w.invoke c).1 := by
  obtain ⟨sender, slot⟩ := c
  cases slot with
  | onDeliveryButtonClicked => exact inv_onDeliveryButtonClicked w sender hw hc
  | onConfirmButtonClicked =>
    show Inv w.onConfirmButtonClicked.1
    rw [onConfirmButtonClicked_fst]
    exact hw

theorem inv_of_reachable (w : MainWindow) (h : Reachable w) : Inv w := by
  induction h with
  | init => exact inv_ctor
  | click w c _ hc ih => exact inv_invoke w c ih hc

theorem run_append (w : MainWindow) (cs ds : List Connection) :
    w.run (cs ++ ds) = (w.run cs).run ds := by
  simp [run, List.foldl_append]

theorem reachable_run (cs : List Connection) (w : MainWindow) (hw : Reachable w)
    (hcs : ∀ c ∈ cs, c ∈ ctor.connections) : Reachable (w.run cs) := by
  induction cs generalizing w with
  | nil => exact hw
  | cons c cs ih =>
    have hc : c ∈ w.connections := by
      rw [(inv_of_reachable w hw).conns]
      exact hcs c (List.mem_cons_self c cs)
    exact ih (w.invoke c).1 (Reachable.click w c hw hc)
      (fun d hd => hcs d (List.mem_cons_of_mem c hd))

theorem deliveryClick_mem (p : Nat) (hp : p ∈ ctor.m_deliveryButtons) :
    deliveryClick p ∈ ctor.connections := by
  have h3 : p = 0 ∨ p = 1 ∨ p = 2 := by
    simpa [ctor, updateConfirmButton, connectSignals, setupUI] using hp
  rcases h3 with rfl | rfl | rfl <;> decide

theorem selection_kept (w : MainWindow) (c : Connection) (h : w.m_selectedDelivery ≠ none) :
    (w.invoke c).1.m_selectedDelivery ≠ none := by
  obtain ⟨sender, slot⟩ := c
  cases slot with
  | onDeliveryButtonClicked =>
    show (w.onDeliveryButtonClicked sender).m_selectedDelivery ≠ none
    cases hc : qobject_cast_DeliveryButton sender with
    | none => rw [onDeliveryButtonClicked_of_cast_none w sender hc]; exact h
    | some p =>
      rw [onDeliveryButtonClicked_of_cast_some w sender p hc, selected_onDeliveryButtonClicked]
      simp
  | onConfirmButtonClicked =>
    show w.onConfirmButtonClicked.1.m_selectedDelivery ≠ none
    rw [onConfirmButtonClicked_fst]
    exact h

theorem selection_kept_run (cs : List Connection) (w : MainWindow)
    (h : w.m_selectedDelivery ≠ none) : (w.run cs).m_selectedDelivery ≠ none := by
  induction cs generalizing w with
  | nil => exact h
  | cons c cs ih => exact ih (w.invoke c).1 (selection_kept w c h)

theorem run_confirm_only (k : Nat) (w : MainWindow) :
    w.run (List.replicate k confirmClick) = w := by
  induction k generalizing w with
  | zero => rfl
  | succ k ih =>
    show (w.invoke confirmClick).1.run (List.replicate k confirmClick) = w
    rw [ih]
    exact onConfirmButtonClicked_fst w

/-- A reachable state whose selection is `b` is the result of a click of `b`. -/
theorem selected_is_last_click (w : MainWindow) (h : Reachable w) (b : Nat)
    (hb : w.m_selectedDelivery = some b) :
    ∃ w0 : MainWindow, w = w0.onDeliveryButtonClicked (.deliveryButton b) := by
  induction h with
  | init => cases hb
  | click w c _ _ ih =>
    obtain ⟨sender, slot⟩ := c
    cases slot with
    | onDeliveryButtonClicked =>
      change (w.onDeliveryButtonClicked sender).m_selectedDelivery = some b at hb
      show ∃ w0 : MainWindow, w.onDeliveryButtonClicked sender =
        w0.onDeliveryButtonClicked (.deliveryButton b)
      cases hc : qobject_cast_DeliveryButton sender with
      | none =>
        rw [onDeliveryButtonClicked_of_cast_none w sender hc] at hb ⊢
        exact ih hb
      | some p =>
        rw [onDeliveryButtonClicked_of_cast_some w sender p hc] at hb ⊢
        rw [selected_onDeliveryButtonClicked] at hb
        cases hb
        exact ⟨w, rfl⟩
    | onConfirmButtonClicked =>
      change w.onConfirmButtonClicked.1.m_selectedDelivery = some b at hb
      show ∃ w0 : MainWindow, w.onConfirmButtonClicked.1 =
        w0.onDeliveryButtonClicked (.deliveryButton b)
      rw [onConfirmButtonClicked_fst] at hb ⊢
      exact ih hb

/-! ## The claims -/

/-- C1: for every sequence of clicks of the three delivery buttons on a freshly constructed
window, after each click (the last of `ps ++ [p]`) the buttons of `m_deliveryButtons` whose
`isSelected()` is true are exactly the clicked one, and every other button's flag is false. -/
theorem C1_exactly_one_selected (ps : List Nat) (p : Nat)
    (hps : ∀ q ∈ ps, q ∈ ctor.m_deliveryButtons) (hp : p ∈ ctor.m_deliveryButtons) :
    (ctor.run ((ps ++ [p]).map deliveryClick)).m_deliveryButtons.filter
        (fun q => (ctor.run ((ps ++ [p]).map deliveryClick)).isSelected q == some true) = [p] ∧
    (ctor.run ((ps ++ [p]).map deliveryClick)).isSelected p = some true ∧
    ∀ q ∈ (ctor.run ((ps ++ [p]).map deliveryClick)).m_deliveryButtons,
      q ≠ p → (ctor.run ((ps ++ [p]).map deliveryClick)).isSelected q = some false := by
  have hall : ∀ c ∈ (ps ++ [p]).map deliveryClick, c ∈ ctor.connections := by
    intro c hc
    rcases List.mem_map.mp hc with ⟨q, hq, rfl⟩
    rcases List.mem_append.mp hq with hq | hq
    · exact deliveryClick_mem q (hps q hq)
    · rw [List.mem_singleton.mp hq]
      exact deliveryClick_mem p hp
  have hsel : (ctor.run ((ps ++ [p]).map deliveryClick)).m_selectedDelivery = some p := by
    rw [List.map_append, run_append]
    rfl
  have hinv := inv_of_reachable _ (reachable_run _ ctor Reachable.init hall)
  generalize ctor.run ((ps ++ [p]).map deliveryClick) = w at hsel hinv
  have hflags := hinv.flags
  rw [hinv.buttons, hsel] at hflags
  have h3 : p = 0 ∨ p = 1 ∨ p = 2 := by
    simpa [ctor, updateConfirmButton, connectSignals, setupUI] using hp
  have f0 := hflags 0 (by simp)
  have f1 := hflags 1 (by simp)
  have f2 := hflags 2 (by simp)
  rw [hinv.buttons]
  rcases h3 with rfl | rfl | rfl <;> simp_all [List.filter]

/-- C1 at the click sequence courier, post, pickup. -/
theorem C1_exactly_one_selected_witness :
    (∀ q ∈ [0, 1], q ∈ ctor.m_deliveryButtons) ∧ 2 ∈ ctor.m_deliveryButtons ∧
    (ctor.run (([0, 1] ++ [2]).map deliveryClick)).m_deliveryButtons.filter
        (fun q => (ctor.run (([0, 1] ++ [2]).map deliveryClick)).isSelected q == some true)
      = [2] :=
  ⟨by decide, by decide, (C1_exactly_one_selected [0, 1] 2 (by decide) (by decide)).1⟩

/-- C2: in every state reachable from the constructor by clicks on the connected buttons,
the confirm button's `m_isActive` flag is true iff `m_selectedDelivery` is not null, and so
is its enabled state. -/
theorem C2_gate_iff_selection (w : MainWindow) (h : Reachable w) :
    (w.m_confirmButton.m_isActive = true ↔ w.m_selectedDelivery ≠ none) ∧
    (w.m_confirmButton.enabled = true ↔ w.m_selectedDelivery ≠ none) := by
  have hinv := inv_of_reachable w h
  rw [hinv.active, hinv.enabled]
  cases w.m_selectedDelivery <;> simp

/-- C2 at the state after one click of the post button. -/
theorem C2_gate_iff_selection_witness :
    Reachable (ctor.invoke (deliveryClick 1)).1 ∧
    ((ctor.invoke (deliveryClick 1)).1.m_confirmButton.m_isActive = true ↔
      (ctor.invoke (deliveryClick 1)).1.m_selectedDelivery ≠ none) :=
  ⟨Reachable.click ctor (deliveryClick 1) Reachable.init (by decide),
   (C2_gate_iff_selection _
      (Reachable.click ctor (deliveryClick 1) Reachable.init (by decide))).1⟩

/-- C3 as stated fails: after courier, post, confirm the message box text is the sentence
"Ви обрали спосіб доставки: 📦 Пошта", which is not the post button's label "📦 Пошта". -/
theorem C3_text_differs :
    Reachable (ctor.run [deliveryClick 0, deliveryClick 1]) ∧
    (ctor.run [deliveryClick 0, deliveryClick 1]).m_confirmButton.m_isActive = true ∧
    (ctor.run [deliveryClick 0, deliveryClick 1]).m_selectedDelivery = some 1 ∧
    ((ctor.run [deliveryClick 0, deliveryClick 1]).heap[1]?).map (fun b => b.text)
      = some "📦 Пошта" ∧
    ((ctor.run [deliveryClick 0, deliveryClick 1]).onConfirmButtonClicked.2).map
        (fun box => box.text) = some "Ви обрали спосіб доставки: 📦 Пошта" ∧
    ((ctor.run [deliveryClick 0, deliveryClick 1]).onConfirmButtonClicked.2).map
        (fun box => box.text) ≠
      ((ctor.run [deliveryClick 0, deliveryClick 1]).heap[1]?).map (fun b => b.text) := by
  refine ⟨?_, rfl, rfl, by decide, by decide, by decide⟩
  exact reachable_run _ ctor Reachable.init (by decide)

/-- C3 (amended): in every reachable state in which the confirm button is active,
`onConfirmButtonClicked` shows a message box, and its text is the fixed sentence
"Ви обрали спосіб доставки: " followed by the label of the currently selected delivery
button, which is one of `m_deliveryButtons`. -/
theorem C3_confirmation_text (w : MainWindow) (h : Reachable w)
    (ha : w.m_confirmButton.m_isActive = true) :
    ∃ p b, w.m_selectedDelivery = some p ∧ p ∈ w.m_deliveryButtons ∧ w.heap[p]? = some b ∧
      w.onConfirmButtonClicked.2 = some (confirmationBox b.text) ∧
      (confirmationBox b.text).text = "Ви обрали спосіб доставки: " ++ b.text := by
  have hinv := inv_of_reachable w h
  have hact := hinv.active
  rw [ha] at hact
  cases hsel : w.m_selectedDelivery with
  | none => simp [hsel] at hact
  | some p =>
    have hpm := hinv.member p hsel
    have hpl : p < w.heap.length := by
      rw [hinv.buttons] at hpm
      rw [hinv.len]
      simp at hpm
      omega
    refine ⟨p, w.heap[p], rfl, hpm, List.getElem?_eq_getElem hpl, ?_, rfl⟩
    simp [onConfirmButtonClicked, hsel, List.getElem?_eq_getElem hpl]

/-- C3 (amended) at the scenario courier, post, confirm. -/
theorem C3_confirmation_text_witness :
    Reachable (ctor.run [deliveryClick 0, deliveryClick 1]) ∧
    (ctor.run [deliveryClick 0, deliveryClick 1]).m_confirmButton.m_isActive = true ∧
    ∃ p b, (ctor.run [deliveryClick 0, deliveryClick 1]).m_selectedDelivery = some p ∧
      p ∈ (ctor.run [deliveryClick 0, deliveryClick 1]).m_deliveryButtons ∧
      (ctor.run [deliveryClick 0, deliveryClick 1]).heap[p]? = some b ∧
      (ctor.run [deliveryClick 0, deliveryClick 1]).onConfirmButtonClicked.2
        = some (confirmationBox b.text) ∧
      (confirmationBox b.text).text = "Ви обрали спосіб доставки: " ++ b.text :=
  ⟨reachable_run _ ctor Reachable.init (by decide), rfl,
   C3_confirmation_text _ (reachable_run _ ctor Reachable.init (by decide)) rfl⟩

/-- C4: in every reachable state in which the confirm button is inactive,
`onConfirmButtonClicked` shows no message box (and changes nothing), and the button's
`mousePressEvent` does not pass the press on to `QPushButton`. -/
theorem C4_inactive_confirm_is_silent (w : MainWindow) (h : Reachable w)
    (hi : w.m_confirmButton.m_isActive = false) :
    w.onConfirmButtonClicked.2 = none ∧ w.onConfirmButtonClicked.1 = w ∧
    w.m_confirmButton.mousePressEvent = (w.m_confirmButton, false) := by
  have hinv := inv_of_reachable w h
  have hact := hinv.active
  rw [hi] at hact
  refine ⟨?_, onConfirmButtonClicked_fst w, ?_⟩
  · cases hsel : w.m_selectedDelivery with
    | none => simp [onConfirmButtonClicked, hsel]
    | some p => simp [hsel] at hact
  · simp [ConfirmButton.mousePressEvent, hi]

/-- C4 in the initial state, before any delivery button was clicked. -/
theorem C4_inactive_confirm_is_silent_witness :
    Reachable ctor ∧ ctor.m_confirmButton.m_isActive = false ∧
    ctor.onConfirmButtonClicked.2 = none :=
  ⟨Reachable.init, rfl, (C4_inactive_confirm_is_silent ctor Reachable.init rfl).1⟩

/-- C5: the confirm button's active flag is false after construction and after any number
`k` of confirm clicks made before the first delivery click; it is true after the first
delivery click and after every sequence `cs` of later clicks on connected buttons. -/
theorem C5_gate_latches (k p : Nat) (cs : List Connection)
    (hp : p ∈ ctor.m_deliveryButtons) (hcs : ∀ c ∈ cs, c ∈ ctor.connections) :
    ctor.m_confirmButton.m_isActive = false ∧
    (ctor.run (List.replicate k confirmClick)).m_confirmButton.m_isActive = false ∧
    (ctor.run (List.replicate k confirmClick ++ [deliveryClick p])).m_confirmButton.m_isActive
      = true ∧
    (ctor.run (List.replicate k confirmClick ++ [deliveryClick p] ++ cs)).m_confirmButton.m_isActive
      = true := by
  have hall : ∀ c ∈ List.replicate k confirmClick ++ [deliveryClick p] ++ cs,
      c ∈ ctor.connections := by
    intro c hc
    rcases List.mem_append.mp hc with hc | hc
    · rcases List.mem_append.mp hc with hc | hc
      · rw [(List.mem_replicate.mp hc).2]
        decide
      · rw [List.mem_singleton.mp hc]
        exact deliveryClick_mem p hp
    · exact hcs c hc
  have hsel1 : (ctor.run (List.replicate k confirmClick ++ [deliveryClick p])).m_selectedDelivery
      ≠ none := by
    rw [run_append, run_confirm_only]
    exact fun e => Option.noConfusion e
  have hsel2 : (ctor.run (List.replicate k confirmClick ++ [deliveryClick p] ++ cs)).m_selectedDelivery
      ≠ none := by
    rw [run_append]
    exact selection_kept_run cs _ hsel1
  have hinv1 := inv_of_reachable _ (reachable_run _ ctor Reachable.init
    (fun c hc => hall c (List.mem_append_left cs hc)))
  have hinv2 := inv_of_reachable _ (reachable_run _ ctor Reachable.init hall)
  refine ⟨rfl, ?_, ?_, ?_⟩
  · rw [run_confirm_only]
    rfl
  · rw [hinv1.active]
    simpa using hsel1
  · rw [hinv2.active]
    simpa using hsel2

/-- C5 with one confirm click, then courier, then post and confirm. -/
theorem C5_gate_latches_witness :
    0 ∈ ctor.m_deliveryButtons ∧
    (∀ c ∈ [deliveryClick 1, confirmClick], c ∈ ctor.connections) ∧
    (ctor.run (List.replicate 1 confirmClick ++ [deliveryClick 0] ++
        [deliveryClick 1, confirmClick])).m_confirmButton.m_isActive = true :=
  ⟨by decide, by decide,
   (C5_gate_latches 1 0 [deliveryClick 1, confirmClick] (by decide) (by decide)).2.2.2⟩

/-- C6 as stated fails: a sender that is a `DeliveryButton` outside `m_deliveryButtons`
passes the cast, so the handler selects it: `m_selectedDelivery`, the stray button's flag
and the confirm button's active flag all change. -/
theorem C6_stray_delivery_button_is_selected :
    3 ∉ withStrayButton.m_deliveryButtons ∧
    withStrayButton.m_selectedDelivery = none ∧
    (withStrayButton.onDeliveryButtonClicked (.deliveryButton 3)).m_selectedDelivery
      = some 3 ∧
    withStrayButton.isSelected 3 = some false ∧
    (withStrayButton.onDeliveryButtonClicked (.deliveryButton 3)).isSelected 3 = some true ∧
    withStrayButton.m_confirmButton.m_isActive = false ∧
    (withStrayButton.onDeliveryButtonClicked (.deliveryButton 3)).m_confirmButton.m_isActive
      = true := by
  refine ⟨by decide, rfl, rfl, by decide, by decide, rfl, rfl⟩

/-- C6 (amended): for every state and every sender that `qobject_cast<DeliveryButton*>`
maps to null (a null sender or an object of another class), `onDeliveryButtonClicked`
returns the state unchanged: all selected flags, `m_selectedDelivery` and the confirm
button are as before. -/
theorem C6_non_delivery_sender_ignored (w : MainWindow) (sender : QObjectPtr)
    (h : qobject_cast_DeliveryButton sender = none) :
    w.onDeliveryButtonClicked sender = w ∧
    (∀ q, (w.onDeliveryButtonClicked sender).isSelected q = w.isSelected q) ∧
    (w.onDeliveryButtonClicked sender).m_selectedDelivery = w.m_selectedDelivery ∧
    (w.onDeliveryButtonClicked sender).m_confirmButton.m_isActive
      = w.m_confirmButton.m_isActive := by
  rw [onDeliveryButtonClicked_of_cast_none w sender h]
  exact ⟨rfl, fun _ => rfl, rfl, rfl⟩

/-- C6 (amended) with the confirm button as sender, after the post button was clicked. -/
theorem C6_non_delivery_sender_ignored_witness :
    qobject_cast_DeliveryButton .confirmButton = none ∧
    (ctor.run [deliveryClick 1]).onDeliveryButtonClicked .confirmButton
      = ctor.run [deliveryClick 1] :=
  ⟨rfl, (C6_non_delivery_sender_ignored (ctor.run [deliveryClick 1]) .confirmButton rfl).1⟩

/-- C7: in every reachable state and for every button `b` of `m_deliveryButtons`, the click
of `b` is a connected event, two consecutive clicks of `b` leave the same state as one
click of `b`, and when `b` is already the selected button a click of `b` leaves the state
as it is. -/
theorem C7_select_idempotent (w : MainWindow) (h : Reachable w) (b : Nat)
    (hb : b ∈ w.m_deliveryButtons) :
    deliveryClick b ∈ w.connections ∧
    ((w.invoke (deliveryClick b)).1.invoke (deliveryClick b)).1 = (w.invoke (deliveryClick b)).1 ∧
    (w.m_selectedDelivery = some b → (w.invoke (deliveryClick b)).1 = w) := by
  have hinv := inv_of_reachable w h
  have hconn : deliveryClick b ∈ w.connections := by
    rw [hinv.conns]
    rw [hinv.buttons] at hb
    have h3 : b = 0 ∨ b = 1 ∨ b = 2 := by simpa using hb
    rcases h3 with rfl | rfl | rfl <;> simp
  refine ⟨hconn, onDeliveryButtonClicked_twice w b, ?_⟩
  intro hsel
  obtain ⟨w0, hw0⟩ := selected_is_last_click w h b hsel
  show w.onDeliveryButtonClicked (.deliveryButton b) = w
  rw [hw0]
  exact onDeliveryButtonClicked_twice w0 b

/-- C7 at the state after courier then post, clicking post again. -/
theorem C7_select_idempotent_witness :
    Reachable (ctor.run [deliveryClick 0, deliveryClick 1]) ∧
    1 ∈ (ctor.run [deliveryClick 0, deliveryClick 1]).m_deliveryButtons ∧
    (ctor.run [deliveryClick 0, deliveryClick 1]).m_selectedDelivery = some 1 ∧
    ((ctor.run [deliveryClick 0, deliveryClick 1]).invoke (deliveryClick 1)).1
      = ctor.run [deliveryClick 0, deliveryClick 1] :=
  ⟨reachable_run _ ctor Reachable.init (by decide), by decide, rfl,
   (C7_select_idempotent _ (reachable_run _ ctor Reachable.init (by decide)) 1
      (by decide)).2.2 rfl⟩

/-- C8: in every reachable state `m_selectedDelivery` is null exactly when no button of
`m_deliveryButtons` has `isSelected()` true; otherwise it is a member of
`m_deliveryButtons`, its flag is true and it is the only button whose flag is true. -/
theorem C8_selection_agrees_with_flags (w : MainWindow) (h : Reachable w) :
    (w.m_selectedDelivery = none ↔
      ∀ q ∈ w.m_deliveryButtons, w.isSelected q ≠ some true) ∧
    (∀ p, w.m_selectedDelivery = some p →
      p ∈ w.m_deliveryButtons ∧ w.isSelected p = some true ∧
      ∀ q ∈ w.m_deliveryButtons, (w.isSelected q = some true ↔ q = p)) := by
  have hinv := inv_of_reachable w h
  have hflags := hinv.flags
  have hmember := hinv.member
  refine ⟨?_, ?_⟩
  · constructor
    · intro hnone q hq
      rw [hflags q hq, hnone]
      simp
    · intro hall
      cases hsel : w.m_selectedDelivery with
      | none => rfl
      | some p =>
        exfalso
        have hp := hmember p hsel
        apply hall p hp
        rw [hflags p hp, hsel]
        simp
  · intro p hsel
    have hp := hmember p hsel
    refine ⟨hp, ?_, ?_⟩
    · rw [hflags p hp, hsel]
      simp
    · intro q hq
      rw [hflags q hq, hsel]
      simp only [Option.some.injEq, beq_iff_eq]
      exact eq_comm

/-- C8 at the state after courier then pickup. -/
theorem C8_selection_agrees_with_flags_witness :
    Reachable (ctor.run [deliveryClick 0, deliveryClick 2]) ∧
    (∀ p, (ctor.run [deliveryClick 0, deliveryClick 2]).m_selectedDelivery = some p →
      p ∈ (ctor.run [deliveryClick 0, deliveryClick 2]).m_deliveryButtons ∧
      (ctor.run [deliveryClick 0, deliveryClick 2]).isSelected p = some true ∧
      ∀ q ∈ (ctor.run [deliveryClick 0, deliveryClick 2]).m_deliveryButtons,
        ((ctor.run [deliveryClick 0, deliveryClick 2]).isSelected q = some true ↔ q = p)) :=
  ⟨reachable_run _ ctor Reachable.init (by decide),
   (C8_selection_agrees_with_flags _ (reachable_run _ ctor Reachable.init (by decide))).2⟩

/-- C9: in every state `onConfirmButtonClicked` returns the state unchanged, whether or
not it shows a box: every button's selected flag, `m_selectedDelivery` and the confirm
button's active flag are as before; and `enterEvent` and `leaveEvent` of a
`DeliveryButton` leave its `m_isSelected` unchanged. -/
theorem C9_selection_frame (w : MainWindow) (b : DeliveryButton) :
    w.onConfirmButtonClicked.1 = w ∧
    (∀ q, w.onConfirmButtonClicked.1.isSelected q = w.isSelected q) ∧
    w.onConfirmButtonClicked.1.m_selectedDelivery = w.m_selectedDelivery ∧
    w.onConfirmButtonClicked.1.m_confirmButton.m_isActive = w.m_confirmButton.m_isActive ∧
    b.enterEvent.m_isSelected = b.m_isSelected ∧
    b.leaveEvent.m_isSelected = b.m_isSelected := by
  rw [onConfirmButtonClicked_fst]
  exact ⟨rfl, fun _ => rfl, rfl, rfl, rfl, rfl⟩

end MainWindow

/-- C10: for every `ConfirmButton` state `c` and boolean `b`, `setActive(b)` sets
`m_isActive` and the enabled state to `b`, the cursor to the pointing hand if `b` and to
the forbidden cursor otherwise, and the style sheet to the active style if `b` and to the
inactive style otherwise; these four depend on `b` alone (they agree for any two earlier
states, the other fields being carried over), and `setActive(b)` applied twice equals
`setActive(b)` applied once. -/
theorem C10_setActive (c c2 : ConfirmButton) (b : Bool) :
    (c.setActive b).m_isActive = b ∧
    (c.setActive b).enabled = b ∧
    (c.setActive b).cursor =
      (if b then CursorShape.PointingHandCursor else CursorShape.ForbiddenCursor) ∧
    (c.setActive b).styleSheet =
      (if b then ConfirmButton.activeStyle else ConfirmButton.inactiveStyle) ∧
    c.setActive b = { c with
      m_isActive := b, enabled := b,
      styleSheet := if b then ConfirmButton.activeStyle else ConfirmButton.inactiveStyle,
      cursor := if b then CursorShape.PointingHandCursor else CursorShape.ForbiddenCursor } ∧
    ((c.setActive b).m_isActive = (c2.setActive b).m_isActive ∧
     (c.setActive b).enabled = (c2.setActive b).enabled ∧
     (c.setActive b).cursor = (c2.setActive b).cursor ∧
     (c.setActive b).styleSheet = (c2.setActive b).styleSheet) ∧
    (c.setActive b).setActive b = c.setActive b := by
  cases b <;> exact ⟨rfl, rfl, rfl, rfl, rfl, ⟨rfl, rfl, rfl, rfl⟩, rfl⟩

end Lab3
